import Mathlib

/-!
Verification development for two modules of the OpenPNM repository:

* `openpnm/io/_hdf5.py` — `HDF5.export_data`: iterates over a flattened
  path → array mapping, sanitizes each path (`'_'.join(item.split('.'))`),
  skips object-dtype arrays with a logged warning, silently skips
  fixed-width unicode arrays (inspecting `arr[0].dtype`), and creates a
  dataset for every remaining entry.

* `openpnm/geometry/_imported.py` — `Imported.__init__`: moves all network
  properties not in an exclusion list onto the geometry, fills in the two
  essential diameters from configurable alias keys (logging, not raising,
  when the alias is missing), and registers shape-dependent models for
  throat length, throat volume and the two size factors.

Machine integers and floats play no role in the verified claims, so
property arrays are modelled as lists of integers; only keys, dtypes,
sizes and control flow matter.
-/

/-! ### Path sanitization: `'_'.join(item.split('.'))` -/

/-- Python's `s.split(sep)` for a single-character separator, on `List Char`. -/
def splitChar (sep : Char) : List Char → List (List Char)
  | [] => [[]]
  | c :: rest =>
    if c = sep then [] :: splitChar sep rest
    else
      match splitChar sep rest with
      | [] => [[c]]
      | chunk :: chunks => (c :: chunk) :: chunks

/-- Python's `sep.join(chunks)` for a single-character separator. -/
def joinChar (sep : Char) : List (List Char) → List Char
  | [] => []
  | [chunk] => chunk
  | chunk :: rest => chunk ++ sep :: joinChar sep rest

/-- The sanitization applied by `export_data` (line 80 of `_hdf5.py`):
`tempname = '_'.join(item.split('.'))`. -/
def sanitize (s : List Char) : List Char := joinChar '_' (splitChar '.' s)

/-- String-level sanitization. -/
def sanitizeStr (s : String) : String := String.mk (sanitize s.data)

/-- Replacing a single dot character. -/
def replDot (c : Char) : Char := if c = '.' then '_' else c

/-- Inverse replacement used to show injectivity on underscore-free keys. -/
def unrepl (c : Char) : Char := if c = '_' then '.' else c

lemma splitChar_ne_nil (sep : Char) (s : List Char) : splitChar sep s ≠ [] := by
  cases s with
  | nil => simp [splitChar]
  | cons c rest =>
    by_cases h : c = sep
    · simp [splitChar, h]
    · cases hs : splitChar sep rest <;> simp [splitChar, h, hs]

lemma joinChar_cons_cons (sep : Char) (c : Char) (chunk : List Char)
    (chunks : List (List Char)) :
    joinChar sep ((c :: chunk) :: chunks) = c :: joinChar sep (chunk :: chunks) := by
  cases chunks <;> simp [joinChar]

lemma joinChar_nil_cons (sep : Char) (l : List (List Char)) (h : l ≠ []) :
    joinChar sep ([] :: l) = sep :: joinChar sep l := by
  cases l with
  | nil => exact absurd rfl h
  | cons chunk chunks => simp [joinChar]

/-- The join-of-split sanitization is character-wise dot replacement. -/
lemma sanitize_eq_map (s : List Char) : sanitize s = s.map replDot := by
  induction s with
  | nil => rfl
  | cons c rest ih =>
    unfold sanitize at ih ⊢
    by_cases h : c = '.'
    · rw [show splitChar '.' (c :: rest) = [] :: splitChar '.' rest by
        simp [splitChar, h]]
      rw [joinChar_nil_cons _ _ (splitChar_ne_nil _ _)]
      simp [replDot, h, ih]
    · cases hs : splitChar '.' rest with
      | nil => exact absurd hs (splitChar_ne_nil _ _)
      | cons chunk chunks =>
        rw [show splitChar '.' (c :: rest) = (c :: chunk) :: chunks by
          simp [splitChar, h, hs]]
        rw [joinChar_cons_cons, ← hs]
        simp [replDot, h, ih]

lemma unrepl_replDot (c : Char) (h : c ≠ '_') : unrepl (replDot c) = c := by
  by_cases hd : c = '.'
  · simp [replDot, unrepl, hd]
  · simp [replDot, unrepl, hd, h]

lemma map_unrepl_replDot (l : List Char) (h : '_' ∉ l) :
    l.map (fun c => unrepl (replDot c)) = l := by
  induction l with
  | nil => rfl
  | cons c rest ih =>
    have hc : c ≠ '_' := fun hc => h (hc ▸ List.mem_cons_self c rest)
    have hr : '_' ∉ rest := fun hr => h (List.mem_cons_of_mem c hr)
    simp [unrepl_replDot c hc, ih hr]

lemma string_mk_data (s : String) : String.mk s.data = s := rfl

/-! ### Dtypes and the export loop of `HDF5.export_data` -/

/-- The dtype categories distinguished by `export_data`: `'O'` (object),
fixed-width unicode (whose dtype string contains `'U'`), and everything
else (numeric/boolean dtypes, written as datasets). -/
inductive NpDtype
  | obj
  | unicode
  | numeric
deriving DecidableEq

/-- What the loop observes of one leaf array: its dtype and its length
(`arr[0]` raises `IndexError` on an empty array). -/
structure NpArray where
  dtype : NpDtype
  size : Nat
deriving DecidableEq

/-- The check `'U' in str(dtype)`: true exactly for fixed-width unicode dtypes. -/
def dtypeHasU : NpDtype → Bool
  | NpDtype.unicode => true
  | _ => false

/-- The warning logged for object-dtype entries (line 83 of `_hdf5.py`). -/
def warnMsg (item : String) : String := item ++ " has dtype object, will not write to file"

/-- Outcome of the export loop: dataset names created (in order), warnings
logged, and the uncaught exception if one was raised.  On an exception the
datasets already created remain recorded (the file is left partially
written), and no later entry is processed. -/
structure ExportResult where
  datasets : List String
  warnings : List String
  err : Option String
deriving DecidableEq

/-- The loop of `HDF5.export_data` (lines 79–89 of `_hdf5.py`) over the
flat path → array mapping:

```
for item in d.keys():
    tempname = '_'.join(item.split('.'))
    arr = d[item]
    if d[item].dtype == 'O':
        logger.warning(item + ' has dtype object, will not write to file')
        del d[item]
    elif 'U' in str(arr[0].dtype):
        pass
    else:
        f.create_dataset(name='/'+tempname, ...)
```

`arr[0]` is evaluated only in the `elif`, i.e. only when the dtype is not
object; on an empty array it raises `IndexError`, aborting the export. -/
def exportLoop : List (String × NpArray) → ExportResult
  | [] => ⟨[], [], none⟩
  | (item, arr) :: rest =>
    if arr.dtype = NpDtype.obj then
      let r := exportLoop rest
      ⟨r.datasets, warnMsg item :: r.warnings, r.err⟩
    else if arr.size = 0 then
      ⟨[], [], some ("IndexError: index 0 is out of bounds in " ++ item)⟩
    else if dtypeHasU arr.dtype then
      exportLoop rest
    else
      let r := exportLoop rest
      ⟨("/" ++ sanitizeStr item) :: r.datasets, r.warnings, r.err⟩

/-- When no exception is raised, the warnings are exactly the object-dtype
entries' messages and the datasets are exactly the sanitized names of the
non-object, non-unicode entries, in order. -/
lemma exportLoop_ok_spec (entries : List (String × NpArray))
    (h : (exportLoop entries).err = none) :
    (exportLoop entries).warnings
      = (entries.filter (fun e => e.2.dtype == NpDtype.obj)).map (fun e => warnMsg e.1)
    ∧ (exportLoop entries).datasets
      = (entries.filter (fun e => !(e.2.dtype == NpDtype.obj) && !dtypeHasU e.2.dtype)).map
          (fun e => "/" ++ sanitizeStr e.1) := by
  induction entries with
  | nil => exact ⟨rfl, rfl⟩
  | cons e rest ih =>
    obtain ⟨item, arr⟩ := e
    by_cases hobj : arr.dtype = NpDtype.obj
    · have herr : (exportLoop rest).err = none := by
        simpa [exportLoop, hobj] using h
      obtain ⟨hw, hd⟩ := ih herr
      simp [exportLoop, hobj, hw, hd, dtypeHasU]
    · by_cases hz : arr.size = 0
      · exfalso
        simp [exportLoop, hobj, hz] at h
      · by_cases hu : dtypeHasU arr.dtype = true
        · have herr : (exportLoop rest).err = none := by
            simpa [exportLoop, hobj, hz, hu] using h
          obtain ⟨hw, hd⟩ := ih herr
          have hobju : (arr.dtype == NpDtype.obj) = false := by
            simp [hobj]
          simp [exportLoop, hobj, hz, hu, hw, hd, hobju]
        · have herr : (exportLoop rest).err = none := by
            simpa [exportLoop, hobj, hz, hu] using h
          obtain ⟨hw, hd⟩ := ih herr
          simp [exportLoop, hobj, hz, hu, hw, hd]

/-- Unicode entries with a nonempty array are skipped entirely: removing
them from the input does not change the export outcome at all (no dataset,
no warning), provided no exception is raised. -/
lemma exportLoop_filter_unicode (entries : List (String × NpArray))
    (h : (exportLoop entries).err = none) :
    exportLoop entries = exportLoop (entries.filter (fun e => !dtypeHasU e.2.dtype)) := by
  induction entries with
  | nil => rfl
  | cons e rest ih =>
    obtain ⟨item, arr⟩ := e
    by_cases hobj : arr.dtype = NpDtype.obj
    · have herr : (exportLoop rest).err = none := by
        simpa [exportLoop, hobj] using h
      have hu : dtypeHasU arr.dtype = false := by
        rw [hobj]; rfl
      simp [exportLoop, hobj, hu, List.filter_cons, ih herr]
    · by_cases hz : arr.size = 0
      · exfalso
        simp [exportLoop, hobj, hz] at h
      · by_cases hu : dtypeHasU arr.dtype = true
        · have herr : (exportLoop rest).err = none := by
            simpa [exportLoop, hobj, hz, hu] using h
          simp [exportLoop, hobj, hz, hu, List.filter_cons, ih herr]
        · have herr : (exportLoop rest).err = none := by
            simpa [exportLoop, hobj, hz, hu] using h
          have hu' : dtypeHasU arr.dtype = false := by
            simpa using hu
          simp [exportLoop, hobj, hz, hu', List.filter_cons, ih herr]

/-- Exceptions arise only from the `arr[0]` access: one direction of the
characterization of `err`. -/
lemma exportLoop_err_none_of_sizes (entries : List (String × NpArray))
    (h : ∀ e ∈ entries, 0 < e.2.size) : (exportLoop entries).err = none := by
  induction entries with
  | nil => rfl
  | cons e rest ih =>
    obtain ⟨item, arr⟩ := e
    have hsz : 0 < arr.size := h (item, arr) (List.mem_cons_self _ _)
    have hrest : ∀ e ∈ rest, 0 < e.2.size := fun e he => h e (List.mem_cons_of_mem _ he)
    have hz : ¬arr.size = 0 := Nat.pos_iff_ne_zero.mp hsz
    by_cases hobj : arr.dtype = NpDtype.obj
    · simpa [exportLoop, hobj] using ih hrest
    · by_cases hu : dtypeHasU arr.dtype = true
      · simpa [exportLoop, hobj, hz, hu] using ih hrest
      · simpa [exportLoop, hobj, hz, hu] using ih hrest

/-! ### Claim theorems for `HDF5.export_data` -/

/-- C1: every flat-map entry with object dtype gets a diagnostic naming its
path and no dataset; the remaining entries are all processed, so the
written dataset list consists exactly of the non-object (and non-unicode)
entries' sanitized names — no object-dtype leaf appears in it. -/
theorem export_obj_skipped_with_warning (entries : List (String × NpArray))
    (h : (exportLoop entries).err = none) :
    (∀ item arr, (item, arr) ∈ entries → arr.dtype = NpDtype.obj →
        warnMsg item ∈ (exportLoop entries).warnings)
    ∧ (exportLoop entries).datasets
      = (entries.filter (fun e => !(e.2.dtype == NpDtype.obj) && !dtypeHasU e.2.dtype)).map
          (fun e => "/" ++ sanitizeStr e.1) := by
  obtain ⟨hw, hd⟩ := exportLoop_ok_spec entries h
  refine ⟨fun item arr hmem hobj => ?_, hd⟩
  rw [hw]
  exact List.mem_map.mpr ⟨(item, arr), List.mem_filter.mpr ⟨hmem, by simp [hobj]⟩, rfl⟩

/-- Concrete input for the C1 witness. -/
def entriesW : List (String × NpArray) :=
  [("network/net_01/pore.junk", ⟨NpDtype.obj, 3⟩),
   ("network/net_01/pore.volume", ⟨NpDtype.numeric, 3⟩)]

/-- Witness for C1 at a concrete flat map. -/
theorem export_obj_skipped_with_warning_witness :
    warnMsg "network/net_01/pore.junk" ∈ (exportLoop entriesW).warnings :=
  (export_obj_skipped_with_warning entriesW (by decide)).1
    "network/net_01/pore.junk" ⟨NpDtype.obj, 3⟩ (by decide) rfl

/-- Concrete input for the C2 counterexample. -/
def entriesU : List (String × NpArray) := [("network/net_01/pore.label", ⟨NpDtype.unicode, 3⟩)]

/-- C2 counterexample: a fixed-width unicode entry is not written, but no
diagnostic whatsoever is recorded — the warning log stays empty, refuting
the claim that a diagnostic is recorded for the skipped entry. -/
theorem export_unicode_no_diagnostic_counterexample :
    (exportLoop entriesU).datasets = [] ∧ (exportLoop entriesU).warnings = []
    ∧ (exportLoop entriesU).err = none := by decide

/-- C2 (amended): fixed-width unicode entries are not written and export
continues, but they are skipped silently — removing them from the input
changes neither the datasets written, nor the warnings, nor the outcome. -/
theorem export_unicode_skipped_silently (entries : List (String × NpArray))
    (h : (exportLoop entries).err = none) :
    exportLoop entries = exportLoop (entries.filter (fun e => !dtypeHasU e.2.dtype)) :=
  exportLoop_filter_unicode entries h

/-- Concrete input for the C2 witness. -/
def entriesU2 : List (String × NpArray) :=
  [("network/net_01/pore.text", ⟨NpDtype.unicode, 2⟩),
   ("network/net_01/pore.volume", ⟨NpDtype.numeric, 2⟩)]

/-- Witness for the amended C2 at a concrete flat map. -/
theorem export_unicode_skipped_silently_witness :
    exportLoop entriesU2 = exportLoop (entriesU2.filter (fun e => !dtypeHasU e.2.dtype)) :=
  export_unicode_skipped_silently entriesU2 (by decide)

/-- C3 counterexample: two distinct dotted property paths collide after
sanitization — `pore.a.b` and `pore.a_b` both become `pore_a_b`. -/
theorem sanitize_collision_counterexample :
    sanitizeStr "pore.a.b" = sanitizeStr "pore.a_b" ∧ "pore.a.b" ≠ "pore.a_b" := by decide

/-- C3 (amended): the sanitization (replace every `.` by `_`) is a pure
function of the path, hence deterministic, and it is collision-free on
the set of keys that contain no underscore; keys containing `_` can
collide with dotted keys. -/
theorem sanitize_injective_no_underscore (s t : String)
    (hs : '_' ∉ s.data) (ht : '_' ∉ t.data)
    (h : sanitizeStr s = sanitizeStr t) : s = t := by
  have hdata : sanitize s.data = sanitize t.data := by
    have := congrArg String.data h
    simpa [sanitizeStr] using this
  rw [sanitize_eq_map, sanitize_eq_map] at hdata
  have hmap : s.data.map (fun c => unrepl (replDot c)) = t.data.map (fun c => unrepl (replDot c)) := by
    have h2 := congrArg (List.map unrepl) hdata
    simpa [List.map_map, Function.comp] using h2
  rw [map_unrepl_replDot s.data hs, map_unrepl_replDot t.data ht] at hmap
  calc s = String.mk s.data := (string_mk_data s).symm
    _ = String.mk t.data := by rw [hmap]
    _ = t := string_mk_data t

/-- Witness for the amended C3 at concrete underscore-free keys. -/
theorem sanitize_injective_no_underscore_witness : "pore.volume" = "pore.volume" :=
  sanitize_injective_no_underscore "pore.volume" "pore.volume" (by decide) (by decide) rfl

/-- C10: the unsupported-type check reads `arr[0].dtype`, so any entry with
an empty array of non-object dtype makes the export raise an `IndexError`
(no dataset is written for it); if every leaf array is non-empty, that
error branch is unreachable and the export finishes without exception. -/
theorem export_empty_array_index_error (entries : List (String × NpArray)) :
    (∀ item arr, (item, arr) ∈ entries → arr.dtype ≠ NpDtype.obj → arr.size = 0 →
        (exportLoop entries).err.isSome = true)
    ∧ ((∀ e ∈ entries, 0 < e.2.size) → (exportLoop entries).err = none) := by
  constructor
  · intro item arr hmem hobj hz
    induction entries with
    | nil => exact absurd hmem (List.not_mem_nil _)
    | cons e rest ih =>
      obtain ⟨i, a⟩ := e
      rcases List.mem_cons.mp hmem with hhead | htail
      · simp only [Prod.mk.injEq] at hhead
        obtain ⟨hi, ha⟩ := hhead
        subst hi
        subst ha
        simp [exportLoop, hobj, hz]
      · by_cases haobj : a.dtype = NpDtype.obj
        · simpa [exportLoop, haobj] using ih htail
        · by_cases haz : a.size = 0
          · simp [exportLoop, haobj, haz]
          · by_cases hau : dtypeHasU a.dtype = true
            · simpa [exportLoop, haobj, haz, hau] using ih htail
            · simpa [exportLoop, haobj, haz, hau] using ih htail
  · exact exportLoop_err_none_of_sizes entries

/-- Concrete input with an empty numeric array, for the C10 witness. -/
def entriesE : List (String × NpArray) := [("network/net_01/pore.empty", ⟨NpDtype.numeric, 0⟩)]

/-- Concrete input with only non-empty arrays, for the C10 witness. -/
def entriesN : List (String × NpArray) :=
  [("network/net_01/pore.volume", ⟨NpDtype.numeric, 3⟩),
   ("network/net_01/pore.junk", ⟨NpDtype.obj, 3⟩)]

/-- Witness for C10 at concrete flat maps. -/
theorem export_empty_array_index_error_witness :
    (exportLoop entriesE).err.isSome = true ∧ (exportLoop entriesN).err = none :=
  ⟨(export_empty_array_index_error entriesE).1 "network/net_01/pore.empty"
      ⟨NpDtype.numeric, 0⟩ (by decide) (by decide) rfl,
   (export_empty_array_index_error entriesN).2 (by decide)⟩

/-! ### The `Imported` geometry class (`openpnm/geometry/_imported.py`) -/

/-- Property arrays; their numeric content is irrelevant to the claims. -/
abbrev Val := List Int

/-- A container's property store: an association list from
`"<element>.<name>"` keys to arrays, first binding wins (Python dicts have
unique keys, so stores built from a network have no duplicates). -/
abbrev Props := List (String × Val)

/-- Dictionary membership test (`key in self.keys()`). -/
def containsKeyB (k : String) (ps : Props) : Bool := ps.any (fun kv => kv.1 == k)

/-- Dictionary read (`self[key]`), `none` modelling a raised `KeyError`. -/
def lookupKey (k : String) : Props → Option Val
  | [] => none
  | (k', v) :: rest => if k' == k then some v else lookupKey k rest

/-- Python's `network.pop(item)`: removes the binding and returns its value. -/
def popKey (k : String) : Props → Option (Val × Props)
  | [] => none
  | (k', v) :: rest =>
    if k' == k then some (v, rest)
    else
      match popKey k rest with
      | none => none
      | some (w, rest') => some (w, (k', v) :: rest')

/-- Membership `key in exclude` for a Python list of strings. -/
def memStr (k : String) (l : List String) : Bool := l.any (fun x => x == k)

/-- The loop at lines 81–83 of `_imported.py`:

```
for item in network.props():
    if item not in exclude:
        self[item] = network.pop(item)
```

`keys` is the snapshot of `network.props()`; returns the final
(network, geometry) pair. -/
def moveProps (exclude : List String) : List String → Props → Props → Props × Props
  | [], net, geo => (net, geo)
  | k :: ks, net, geo =>
    if memStr k exclude then moveProps exclude ks net geo
    else
      match popKey k net with
      | none => moveProps exclude ks net geo
      | some (v, net') => moveProps exclude ks net' (geo ++ [(k, v)])

/-! ### Python's `setting.split(sep)[-1]` for the alias keys -/

/-- Test `beginsWith pat s` : `pat` starts `s`. -/
def beginsWith : List Char → List Char → Bool
  | [], _ => true
  | _ :: _, [] => false
  | a :: as, b :: bs => a == b && beginsWith as bs

/-- Drops everything up to and including the first occurrence of `pat`
(left-to-right scan), `none` when `pat` does not occur. -/
def dropAfterFirst (pat : List Char) : List Char → Option (List Char)
  | [] => none
  | c :: rest =>
    if beginsWith pat (c :: rest) then some ((c :: rest).drop pat.length)
    else dropAfterFirst pat rest

/-- Fuelled iteration of `dropAfterFirst`: the text after the final
separator occurrence found by Python's left-to-right non-overlapping
scan, i.e. `s.split(pat)[-1]`. -/
def splitLastF : Nat → List Char → List Char → List Char
  | 0, _, s => s
  | n + 1, pat, s =>
    match dropAfterFirst pat s with
    | none => s
    | some t => splitLastF n pat t

/-- Python's `s.split(pat)[-1]` on character lists (`s.length` fuel suffices since
each found occurrence of a non-empty `pat` strictly shortens the rest). -/
def splitLastChars (pat s : List Char) : List Char := splitLastF s.length pat s

/-- Python's `s.split(sep)[-1]` on strings (for the non-empty separators
`'pore.'` and `'throat.'` used by `Imported.__init__`). -/
def pySplitLast (sep s : String) : String := String.mk (splitLastChars sep.data s.data)

/-- The normalized alias key, lines 88 and 107 of `_imported.py`:
`'pore.' + self.settings['pore_diameter'].split('pore.')[-1]`. -/
def aliasKeyOf (sep setting : String) : String := sep ++ pySplitLast sep setting

/-! ### `Imported.__init__` -/

/-- The settings of the `Imported` class (`ImportedSettings` in
`_imported.py`), with class defaults `'extended_diameter'`,
`'inscribed_diameter'`, `'cone'`, `'cylinder'`, `[]`. -/
structure ImpSettings where
  pore_diameter : String
  throat_diameter : String
  pore_shape : String
  throat_shape : String
  exclude_props : List String
deriving DecidableEq

/-- The default `ImportedSettings`. -/
def defaultSettings : ImpSettings :=
  ⟨"extended_diameter", "inscribed_diameter", "cone", "cylinder", []⟩

/-- Modelled from the spec: the shape-model registries live in
`openpnm.models.geometry.{throat_length, throat_volume,
diffusive_size_factors, hydraulic_size_factors}`, which are not part of
the given sources.  Per §4.4 of the spec each is a registry of callables
keyed by name (`getattr` on the module); only which names are present
matters here, so each registry is the list of its available names, and a
missing name is a lookup failure (`AttributeError`) surfaced to the
caller. -/
structure Registries where
  throat_length : List String
  throat_volume : List String
  diffusive_size_factors : List String
  hydraulic_size_factors : List String
deriving DecidableEq

/-- The observable outcome of `Imported.__init__`: the geometry's and the
network's property stores, the models registered via `add_model` (propname
paired with the registry name of the resolved callable — `add_model` only
records, it does not evaluate), the logged diagnostics, and the uncaught
exception if construction aborted. -/
structure GeoState where
  geo : Props
  net : Props
  models : List (String × String)
  logs : List String
  err : Option String
deriving DecidableEq

/-- The three keys unconditionally appended to `exclude` at line 80 of
`_imported.py`. -/
def alwaysExcluded : List String := ["pore.coords", "throat.conns", "pore.region_label"]

/-- Lines 87–92 and 106–111 of `_imported.py`:

```
if canonical not in self.keys():
    key = sep + self.settings[...].split(sep)[-1]
    try:
        self[canonical] = self[key]
    except KeyError:
        logger.error(key + " not found, can't assign '" + canonical + "'")
```

Returns the updated geometry store and log list. -/
def assignAlias (sep canonical setting : String) (geo : Props) (logs : List String) :
    Props × List String :=
  if containsKeyB canonical geo then (geo, logs)
  else
    let key := aliasKeyOf sep setting
    match lookupKey key geo with
    | some v => (geo ++ [(canonical, v)], logs)
    | none => (geo, logs ++ [key ++ " not found, can't assign '" ++ canonical ++ "'"])

/-- The geometry store right after the transfer loop (lines 79–83). -/
def transferredGeo (st : ImpSettings) (network : Props) : Props :=
  (moveProps (st.exclude_props ++ alwaysExcluded) (network.map Prod.fst) network []).2

/-- The network store right after the transfer loop (lines 79–83). -/
def transferredNet (st : ImpSettings) (network : Props) : Props :=
  (moveProps (st.exclude_props ++ alwaysExcluded) (network.map Prod.fst) network []).1

/-- The geometry store and accumulated log after the two essential
diameter assignments (lines 87–92 then 106–111). -/
def aliasedGeoLogs (st : ImpSettings) (network : Props) : Props × List String :=
  let a1 := assignAlias "pore." "pore.diameter" st.pore_diameter (transferredGeo st network) []
  assignAlias "throat." "throat.diameter" st.throat_diameter a1.1 a1.2

/-- The key `p_shape + '_and_' + t_shape` with the two shape labels pluralized
(lines 113–114 of `_imported.py`). -/
def shapePair (st : ImpSettings) : String :=
  st.pore_shape ++ "s" ++ "_and_" ++ st.throat_shape ++ "s"

/-- Lines 113–132 of `_imported.py`: shape-model resolution and
registration, given the geometry store after the diameter assignments.
The lookups mirror the source exactly: `throat.length` and
`throat.volume` are looked up and registered only when absent, while the
two size-factor models are looked up and registered unconditionally; a
failed lookup raises (`AttributeError` from `getattr`), aborting
construction at that point.  Returns the registered models and the
uncaught exception, if any. -/
def registerModels (st : ImpSettings) (reg : Registries) (geo : Props) :
    List (String × String) × Option String :=
  let pair := shapePair st
  if !containsKeyB "throat.length" geo && !memStr pair reg.throat_length then
    ([], some ("AttributeError: module throat_length has no attribute " ++ pair))
  else
    let m1 : List (String × String) :=
      if containsKeyB "throat.length" geo then [] else [("throat.length", pair)]
    if !containsKeyB "throat.volume" geo && !memStr st.throat_shape reg.throat_volume then
      (m1, some ("AttributeError: module throat_volume has no attribute " ++ st.throat_shape))
    else
      let m2 := m1 ++ (if containsKeyB "throat.volume" geo then []
        else [("throat.volume", st.throat_shape)])
      if !memStr pair reg.diffusive_size_factors then
        (m2, some ("AttributeError: module diffusive_size_factors has no attribute " ++ pair))
      else
        let m3 := m2 ++ [("throat.diffusive_size_factors", pair)]
        if !memStr pair reg.hydraulic_size_factors then
          (m3, some ("AttributeError: module hydraulic_size_factors has no attribute " ++ pair))
        else
          (m3 ++ [("throat.hydraulic_size_factors", pair)], none)

/-- Shallow embedding of `Imported.__init__` (lines 69–132 of
`_imported.py`), after the superclass call: property transfer (lines
79–83), essential diameter aliasing (lines 87–92, 106–111), and
shape-model registration (lines 113–132).  The registration phase never
touches the stores or the log, so the state components compose
independently; a lookup failure during registration leaves the models
registered before it and sets the error. -/
def importedInit (st : ImpSettings) (reg : Registries) (network : Props) : GeoState :=
  ⟨(aliasedGeoLogs st network).1,
   transferredNet st network,
   (registerModels st reg (aliasedGeoLogs st network).1).1,
   (aliasedGeoLogs st network).2,
   (registerModels st reg (aliasedGeoLogs st network).1).2⟩

/-! ### Association-list lemmas -/

lemma containsKeyB_append (k : String) (l1 l2 : Props) :
    containsKeyB k (l1 ++ l2) = (containsKeyB k l1 || containsKeyB k l2) := by
  simp [containsKeyB, List.any_append]

lemma containsKeyB_eq_isSome (k : String) (ps : Props) :
    containsKeyB k ps = (lookupKey k ps).isSome := by
  induction ps with
  | nil => rfl
  | cons kv rest ih =>
    obtain ⟨k', v⟩ := kv
    simp only [containsKeyB] at ih ⊢
    by_cases h : k' = k
    · have hb : (k' == k) = true := by simp [h]
      simp [lookupKey, hb]
    · have hb : (k' == k) = false := by simp [h]
      simp [lookupKey, hb, ih]

lemma lookupKey_append (k : String) (l1 l2 : Props) :
    lookupKey k (l1 ++ l2)
      = match lookupKey k l1 with
        | some v => some v
        | none => lookupKey k l2 := by
  induction l1 with
  | nil => rfl
  | cons kv rest ih =>
    obtain ⟨k', v⟩ := kv
    by_cases h : k' = k <;> simp [lookupKey, h, ih]

lemma lookupKey_append_some (k : String) (l1 l2 : Props) (v : Val)
    (h : lookupKey k l1 = some v) : lookupKey k (l1 ++ l2) = some v := by
  rw [lookupKey_append, h]

lemma lookupKey_append_single_ne (k c : String) (l : Props) (v : Val) (h : c ≠ k) :
    lookupKey k (l ++ [(c, v)]) = lookupKey k l := by
  rw [lookupKey_append]
  cases hl : lookupKey k l <;> simp [lookupKey, h]

lemma lookupKey_eq_none_of_not_mem (k : String) (ps : Props)
    (h : k ∉ ps.map Prod.fst) : lookupKey k ps = none := by
  induction ps with
  | nil => rfl
  | cons kv rest ih =>
    obtain ⟨k', v⟩ := kv
    simp only [List.map_cons, List.mem_cons] at h
    push_neg at h
    simp [lookupKey, Ne.symm h.1, ih h.2]

lemma lookupKey_of_mem_nodup (k : String) (v : Val) (ps : Props)
    (hnd : (ps.map Prod.fst).Nodup) (hmem : (k, v) ∈ ps) : lookupKey k ps = some v := by
  induction ps with
  | nil => exact absurd hmem (List.not_mem_nil _)
  | cons kv rest ih =>
    obtain ⟨k', w⟩ := kv
    simp only [List.map_cons, List.nodup_cons] at hnd
    rcases List.mem_cons.mp hmem with hhead | htail
    · simp only [Prod.mk.injEq] at hhead
      obtain ⟨h1, h2⟩ := hhead
      simp [lookupKey, h1, h2]
    · have hk : k' ≠ k := by
        intro he
        exact hnd.1 (he ▸ List.mem_map.mpr ⟨(k, v), htail, rfl⟩)
      simp [lookupKey, hk, ih hnd.2 htail]

/-! ### `popKey` lemmas -/

lemma popKey_lookup_value (k : String) (net net' : Props) (v : Val)
    (h : popKey k net = some (v, net')) : lookupKey k net = some v := by
  induction net generalizing net' with
  | nil => simp [popKey] at h
  | cons kv rest ih =>
    obtain ⟨k', w⟩ := kv
    by_cases hk : k' = k
    · simp [popKey, hk] at h
      simp [lookupKey, hk, h.1]
    · simp only [popKey, beq_iff_eq, hk, if_false] at h
      cases hrest : popKey k rest with
      | none => rw [hrest] at h; simp at h
      | some p =>
        obtain ⟨w', rest'⟩ := p
        rw [hrest] at h
        simp only [Option.some.injEq, Prod.mk.injEq] at h
        simp [lookupKey, hk, ih rest' (by rw [hrest, h.1])]

lemma popKey_of_lookup (k : String) (net : Props) (v : Val)
    (h : lookupKey k net = some v) : ∃ net', popKey k net = some (v, net') := by
  induction net with
  | nil => simp [lookupKey] at h
  | cons kv rest ih =>
    obtain ⟨k', w⟩ := kv
    by_cases hk : k' = k
    · simp [lookupKey, hk] at h
      exact ⟨rest, by simp [popKey, hk, h]⟩
    · simp only [lookupKey, beq_iff_eq, hk, if_false] at h
      obtain ⟨net', hpop⟩ := ih h
      exact ⟨(k', w) :: net', by simp [popKey, hk, hpop]⟩

lemma popKey_eq_none_of_lookup_none (k : String) (net : Props)
    (h : lookupKey k net = none) : popKey k net = none := by
  induction net with
  | nil => rfl
  | cons kv rest ih =>
    obtain ⟨k', w⟩ := kv
    by_cases hk : k' = k
    · simp [lookupKey, hk] at h
    · simp only [lookupKey, beq_iff_eq, hk, if_false] at h
      simp [popKey, hk, ih h]

lemma popKey_lookup_ne (k k'' : String) (net net' : Props) (v : Val) (hne : k ≠ k'')
    (h : popKey k'' net = some (v, net')) : lookupKey k net' = lookupKey k net := by
  induction net generalizing net' with
  | nil => simp [popKey] at h
  | cons kv rest ih =>
    obtain ⟨k', w⟩ := kv
    by_cases hk : k' = k''
    · simp [popKey, hk] at h
      have : k' ≠ k := by rw [hk]; exact fun he => hne he.symm
      simp [← h.2, lookupKey, this]
    · simp only [popKey, beq_iff_eq, hk, if_false] at h
      cases hrest : popKey k'' rest with
      | none => rw [hrest] at h; simp at h
      | some p =>
        obtain ⟨w', rest'⟩ := p
        rw [hrest] at h
        simp only [Option.some.injEq, Prod.mk.injEq] at h
        rw [← h.2]
        by_cases hkk : k' = k
        · simp [lookupKey, hkk]
        · simp [lookupKey, hkk, ih rest' (by rw [hrest, h.1])]

lemma popKey_sublist (k : String) (net net' : Props) (v : Val)
    (h : popKey k net = some (v, net')) : net'.Sublist net := by
  induction net generalizing net' with
  | nil => simp [popKey] at h
  | cons kv rest ih =>
    obtain ⟨k', w⟩ := kv
    by_cases hk : k' = k
    · simp [popKey, hk] at h
      rw [← h.2]
      exact List.Sublist.cons _ (List.Sublist.refl _)
    · simp only [popKey, beq_iff_eq, hk, if_false] at h
      cases hrest : popKey k rest with
      | none => rw [hrest] at h; simp at h
      | some p =>
        obtain ⟨w', rest'⟩ := p
        rw [hrest] at h
        simp only [Option.some.injEq, Prod.mk.injEq] at h
        rw [← h.2]
        exact List.Sublist.cons₂ _ (ih rest' (by rw [hrest, h.1]))

lemma popKey_keys_nodup (k : String) (net net' : Props) (v : Val)
    (hnd : (net.map Prod.fst).Nodup) (h : popKey k net = some (v, net')) :
    (net'.map Prod.fst).Nodup := by
  exact hnd.sublist (List.Sublist.map Prod.fst (popKey_sublist k net net' v h))

lemma popKey_lookup_none_nodup (k : String) (net net' : Props) (v : Val)
    (hnd : (net.map Prod.fst).Nodup) (h : popKey k net = some (v, net')) :
    lookupKey k net' = none := by
  induction net generalizing net' with
  | nil => simp [popKey] at h
  | cons kv rest ih =>
    obtain ⟨k', w⟩ := kv
    simp only [List.map_cons, List.nodup_cons] at hnd
    by_cases hk : k' = k
    · simp [popKey, hk] at h
      rw [← h.2]
      apply lookupKey_eq_none_of_not_mem
      rw [← hk]
      exact hnd.1
    · simp only [popKey, beq_iff_eq, hk, if_false] at h
      cases hrest : popKey k rest with
      | none => rw [hrest] at h; simp at h
      | some p =>
        obtain ⟨w', rest'⟩ := p
        rw [hrest] at h
        simp only [Option.some.injEq, Prod.mk.injEq] at h
        rw [← h.2]
        simp [lookupKey, hk, ih rest' hnd.2 (by rw [hrest, h.1])]

/-! ### `moveProps` lemmas -/

lemma memStr_iff (k : String) (l : List String) : memStr k l = true ↔ k ∈ l := by
  simp [memStr, List.any_eq_true, beq_iff_eq]

/-- Keys in the exclusion list are never removed from the network. -/
lemma moveProps_net_excluded (exclude : List String) (k : String)
    (hk : memStr k exclude = true) :
    ∀ (ks : List String) (net geo : Props),
      lookupKey k (moveProps exclude ks net geo).1 = lookupKey k net := by
  intro ks
  induction ks with
  | nil => intro net geo; rfl
  | cons k'' ks ih =>
    intro net geo
    by_cases hex : memStr k'' exclude = true
    · simp [moveProps, hex, ih]
    · have hne : k ≠ k'' := fun he => hex (he ▸ hk)
      cases hpop : popKey k'' net with
      | none => simp [moveProps, hex, hpop, ih]
      | some p =>
        obtain ⟨v, net'⟩ := p
        rw [show moveProps exclude (k'' :: ks) net geo
              = moveProps exclude ks net' (geo ++ [(k'', v)]) by
            simp [moveProps, hex, hpop]]
        rw [ih net' (geo ++ [(k'', v)])]
        exact popKey_lookup_ne k k'' net net' v hne hpop

/-- Keys in the exclusion list never show up on the geometry. -/
lemma moveProps_geo_excluded (exclude : List String) (k : String)
    (hk : memStr k exclude = true) :
    ∀ (ks : List String) (net geo : Props),
      containsKeyB k (moveProps exclude ks net geo).2 = containsKeyB k geo := by
  intro ks
  induction ks with
  | nil => intro net geo; rfl
  | cons k'' ks ih =>
    intro net geo
    by_cases hex : memStr k'' exclude = true
    · simp [moveProps, hex, ih]
    · have hne : k'' ≠ k := fun he => hex (he ▸ hk)
      cases hpop : popKey k'' net with
      | none => simp [moveProps, hex, hpop, ih]
      | some p =>
        obtain ⟨v, net'⟩ := p
        rw [show moveProps exclude (k'' :: ks) net geo
              = moveProps exclude ks net' (geo ++ [(k'', v)]) by
            simp [moveProps, hex, hpop]]
        rw [ih net' (geo ++ [(k'', v)])]
        simp [containsKeyB_append, containsKeyB, hne]

/-- Keys not in the processed snapshot are untouched on both sides. -/
lemma moveProps_not_processed (exclude : List String) (k : String) :
    ∀ (ks : List String) (net geo : Props), k ∉ ks →
      lookupKey k (moveProps exclude ks net geo).1 = lookupKey k net
      ∧ lookupKey k (moveProps exclude ks net geo).2 = lookupKey k geo := by
  intro ks
  induction ks with
  | nil => intro net geo _; exact ⟨rfl, rfl⟩
  | cons k'' ks ih =>
    intro net geo hk
    have hne : k ≠ k'' := fun he => hk (he ▸ List.mem_cons_self _ _)
    have hks : k ∉ ks := fun he => hk (List.mem_cons_of_mem _ he)
    by_cases hex : memStr k'' exclude = true
    · simp only [moveProps, hex, if_true]
      exact ih net geo hks
    · cases hpop : popKey k'' net with
      | none =>
        simp only [moveProps, hex, if_false, Bool.false_eq_true, hpop]
        exact ih net geo hks
      | some p =>
        obtain ⟨v, net'⟩ := p
        rw [show moveProps exclude (k'' :: ks) net geo
              = moveProps exclude ks net' (geo ++ [(k'', v)]) by
            simp [moveProps, hex, hpop]]
        obtain ⟨h1, h2⟩ := ih net' (geo ++ [(k'', v)]) hks
        refine ⟨?_, ?_⟩
        · rw [h1]
          exact popKey_lookup_ne k k'' net net' v hne hpop
        · rw [h2]
          exact lookupKey_append_single_ne k k'' geo v (fun he => hne he.symm)

/-- A non-excluded key present on the network is moved: afterwards the
geometry holds its value and the network does not hold it any more. -/
lemma moveProps_moves (exclude : List String) (k : String) (v : Val)
    (hex : memStr k exclude = false) :
    ∀ (ks : List String) (net geo : Props), ks.Nodup → k ∈ ks →
      (net.map Prod.fst).Nodup → lookupKey k net = some v → lookupKey k geo = none →
      lookupKey k (moveProps exclude ks net geo).2 = some v
      ∧ lookupKey k (moveProps exclude ks net geo).1 = none := by
  intro ks
  induction ks with
  | nil => intro net geo _ hk; exact absurd hk (List.not_mem_nil _)
  | cons k'' ks ih =>
    intro net geo hnd hk hndnet hnet hgeo
    rcases List.mem_cons.mp hk with rfl | htail
    · -- the key is processed now
      obtain ⟨net', hpop⟩ := popKey_of_lookup k net v hnet
      rw [show moveProps exclude (k :: ks) net geo
            = moveProps exclude ks net' (geo ++ [(k, v)]) by
          simp [moveProps, hex, hpop]]
      have hkks : k ∉ ks := (List.nodup_cons.mp hnd).1
      obtain ⟨h1, h2⟩ := moveProps_not_processed exclude k ks net' (geo ++ [(k, v)]) hkks
      refine ⟨?_, ?_⟩
      · rw [h2, lookupKey_append, hgeo]
        simp [lookupKey]
      · rw [h1]
        exact popKey_lookup_none_nodup k net net' v hndnet hpop
    · -- a different key is processed now
      have hne : k ≠ k'' := by
        intro he
        exact (List.nodup_cons.mp hnd).1 (he ▸ htail)
      have hnd' : ks.Nodup := (List.nodup_cons.mp hnd).2
      by_cases hex'' : memStr k'' exclude = true
      · simp only [moveProps, hex'', if_true]
        exact ih net geo hnd' htail hndnet hnet hgeo
      · cases hpop : popKey k'' net with
        | none =>
          simp only [moveProps, hex'', if_false, Bool.false_eq_true, hpop]
          exact ih net geo hnd' htail hndnet hnet hgeo
        | some p =>
          obtain ⟨w, net'⟩ := p
          rw [show moveProps exclude (k'' :: ks) net geo
                = moveProps exclude ks net' (geo ++ [(k'', w)]) by
              simp [moveProps, hex'', hpop]]
          have hnet' : lookupKey k net' = some v := by
            rw [popKey_lookup_ne k k'' net net' w hne hpop]
            exact hnet
          have hgeo' : lookupKey k (geo ++ [(k'', w)]) = none := by
            rw [lookupKey_append_single_ne k k'' geo w (fun he => hne he.symm)]
            exact hgeo
          exact ih net' (geo ++ [(k'', w)]) hnd' htail
            (popKey_keys_nodup k'' net net' w hndnet hpop) hnet' hgeo'

/-! ### `assignAlias` lemmas -/

lemma assignAlias_present (sep canonical setting : String) (geo : Props) (logs : List String)
    (h : containsKeyB canonical geo = true) :
    assignAlias sep canonical setting geo logs = (geo, logs) := by
  simp [assignAlias, h]

lemma assignAlias_found (sep canonical setting : String) (geo : Props) (logs : List String)
    (v : Val) (h : containsKeyB canonical geo = false)
    (hv : lookupKey (aliasKeyOf sep setting) geo = some v) :
    assignAlias sep canonical setting geo logs = (geo ++ [(canonical, v)], logs) := by
  simp [assignAlias, h, hv]

lemma assignAlias_missing (sep canonical setting : String) (geo : Props) (logs : List String)
    (h : containsKeyB canonical geo = false)
    (hv : lookupKey (aliasKeyOf sep setting) geo = none) :
    assignAlias sep canonical setting geo logs
      = (geo, logs ++ [aliasKeyOf sep setting ++ " not found, can't assign '" ++ canonical ++ "'"]) := by
  simp [assignAlias, h, hv]

/-- The alias steps only ever append the canonical key to the geometry. -/
lemma assignAlias_contains_ne (sep canonical setting k : String) (geo : Props)
    (logs : List String) (hne : k ≠ canonical) :
    containsKeyB k (assignAlias sep canonical setting geo logs).1 = containsKeyB k geo := by
  unfold assignAlias
  by_cases h : containsKeyB canonical geo = true
  · simp [h]
  · simp only [h, Bool.false_eq_true, if_false]
    cases hv : lookupKey (aliasKeyOf sep setting) geo with
    | none => simp [hv]
    | some v =>
      simp only [hv]
      simp [containsKeyB_append, containsKeyB, Ne.symm hne]

lemma assignAlias_lookup_ne (sep canonical setting k : String) (geo : Props)
    (logs : List String) (hne : k ≠ canonical) :
    lookupKey k (assignAlias sep canonical setting geo logs).1 = lookupKey k geo := by
  unfold assignAlias
  by_cases h : containsKeyB canonical geo = true
  · simp [h]
  · simp only [h, Bool.false_eq_true, if_false]
    cases hv : lookupKey (aliasKeyOf sep setting) geo with
    | none => simp [hv]
    | some v =>
      simp only [hv]
      exact lookupKey_append_single_ne k canonical geo v (fun he => hne he.symm)

lemma assignAlias_lookup_some (sep canonical setting k : String) (geo : Props)
    (logs : List String) (v : Val) (hv : lookupKey k geo = some v) :
    lookupKey k (assignAlias sep canonical setting geo logs).1 = some v := by
  unfold assignAlias
  by_cases h : containsKeyB canonical geo = true
  · simp [h, hv]
  · simp only [h, Bool.false_eq_true, if_false]
    cases hv' : lookupKey (aliasKeyOf sep setting) geo with
    | none => simp [hv', hv]
    | some w =>
      simp only [hv']
      exact lookupKey_append_some k geo _ v hv

/-- The alias steps only ever append to the log. -/
lemma assignAlias_logs_mono (sep canonical setting : String) (geo : Props)
    (logs : List String) :
    ∃ t, (assignAlias sep canonical setting geo logs).2 = logs ++ t := by
  unfold assignAlias
  by_cases h : containsKeyB canonical geo = true
  · exact ⟨[], by simp [h]⟩
  · simp only [h, Bool.false_eq_true, if_false]
    cases hv : lookupKey (aliasKeyOf sep setting) geo with
    | none =>
      exact ⟨[aliasKeyOf sep setting ++ " not found, can't assign '" ++ canonical ++ "'"],
        by simp [hv]⟩
    | some v => exact ⟨[], by simp [hv]⟩

/-! ### `importedInit` projection lemmas -/

lemma importedInit_geo (st : ImpSettings) (reg : Registries) (network : Props) :
    (importedInit st reg network).geo = (aliasedGeoLogs st network).1 := rfl

lemma importedInit_net (st : ImpSettings) (reg : Registries) (network : Props) :
    (importedInit st reg network).net = transferredNet st network := rfl

lemma importedInit_logs (st : ImpSettings) (reg : Registries) (network : Props) :
    (importedInit st reg network).logs = (aliasedGeoLogs st network).2 := rfl

lemma importedInit_models (st : ImpSettings) (reg : Registries) (network : Props) :
    (importedInit st reg network).models
      = (registerModels st reg (aliasedGeoLogs st network).1).1 := rfl

lemma importedInit_err (st : ImpSettings) (reg : Registries) (network : Props) :
    (importedInit st reg network).err
      = (registerModels st reg (aliasedGeoLogs st network).1).2 := rfl

/-! ### `split(sep)[-1]` lemmas -/

lemma beginsWith_append_self : ∀ (p s : List Char), beginsWith p (p ++ s) = true := by
  intro p
  induction p with
  | nil => intro s; rfl
  | cons a as ih => intro s; simp [beginsWith, ih]

lemma dropAfterFirst_cons_self (a : Char) (tail s : List Char) :
    dropAfterFirst (a :: tail) (a :: (tail ++ s)) = some s := by
  have hb : beginsWith (a :: tail) (a :: (tail ++ s)) = true := beginsWith_append_self _ _
  unfold dropAfterFirst
  rw [if_pos hb]
  simp [List.drop_left]

lemma dropAfterFirst_length_lt (a : Char) (tail : List Char) :
    ∀ s t, dropAfterFirst (a :: tail) s = some t → t.length < s.length := by
  intro s
  induction s with
  | nil => intro t h; simp [dropAfterFirst] at h
  | cons c rest ih =>
    intro t h
    unfold dropAfterFirst at h
    by_cases hb : beginsWith (a :: tail) (c :: rest) = true
    · rw [if_pos hb] at h
      simp only [Option.some.injEq] at h
      rw [← h]
      simp only [List.length_cons, List.drop_succ_cons, List.length_drop]
      omega
    · rw [if_neg hb] at h
      have := ih t h
      simp only [List.length_cons]
      omega

lemma splitLastF_nil (m : Nat) (pat : List Char) : splitLastF m pat [] = [] := by
  cases m with
  | zero => rfl
  | succ m => simp [splitLastF, dropAfterFirst]

/-- The fuel does not matter once it is at least the input length. -/
lemma splitLastF_fuel (a : Char) (tail : List Char) :
    ∀ n m s, s.length ≤ n → s.length ≤ m →
      splitLastF n (a :: tail) s = splitLastF m (a :: tail) s := by
  intro n
  induction n with
  | zero =>
    intro m s hn _
    have hs : s = [] := List.eq_nil_of_length_eq_zero (Nat.le_zero.mp hn)
    rw [hs, splitLastF_nil, splitLastF_nil]
  | succ n ih =>
    intro m s hn hm
    cases m with
    | zero =>
      have hs : s = [] := List.eq_nil_of_length_eq_zero (Nat.le_zero.mp hm)
      rw [hs, splitLastF_nil, splitLastF_nil]
    | succ m =>
      simp only [splitLastF]
      cases hdrop : dropAfterFirst (a :: tail) s with
      | none => rfl
      | some t =>
        have hlt := dropAfterFirst_length_lt a tail s t hdrop
        exact ih m t (Nat.le_of_lt_succ (Nat.lt_of_lt_of_le hlt hn))
          (Nat.le_of_lt_succ (Nat.lt_of_lt_of_le hlt hm))

/-- Prepending the (non-empty) separator to the operand of
`split(sep)[-1]` does not change the result. -/
lemma splitLastChars_prepend (a : Char) (tail s : List Char) :
    splitLastChars (a :: tail) ((a :: tail) ++ s) = splitLastChars (a :: tail) s := by
  unfold splitLastChars
  have h1 : (a :: tail) ++ s = a :: (tail ++ s) := rfl
  rw [h1]
  have h2 : (a :: (tail ++ s)).length = (tail ++ s).length + 1 := rfl
  rw [h2]
  simp only [splitLastF, dropAfterFirst_cons_self]
  exact splitLastF_fuel a tail (tail ++ s).length s.length s (by simp) (Nat.le_refl _)

lemma string_data_append (s t : String) : (s ++ t).data = s.data ++ t.data := rfl

lemma pySplitLast_prepend (sep s : String) (a : Char) (tail : List Char)
    (hd : sep.data = a :: tail) :
    pySplitLast sep (sep ++ s) = pySplitLast sep s := by
  unfold pySplitLast
  rw [string_data_append, hd, splitLastChars_prepend]

/-- The key `'pore.' + setting.split('pore.')[-1]` is invariant under prepending
`'pore.'` to the setting, and likewise for any non-empty separator. -/
lemma aliasKeyOf_prepend (sep s : String) (a : Char) (tail : List Char)
    (hd : sep.data = a :: tail) :
    aliasKeyOf sep (sep ++ s) = aliasKeyOf sep s := by
  unfold aliasKeyOf
  rw [pySplitLast_prepend sep s a tail hd]

/-- Lemma: `assignAlias` consults the setting only through the normalized key. -/
lemma assignAlias_key_congr (sep canonical x y : String) (geo : Props) (logs : List String)
    (h : aliasKeyOf sep x = aliasKeyOf sep y) :
    assignAlias sep canonical x geo logs = assignAlias sep canonical y geo logs := by
  unfold assignAlias
  rw [h]

/-! ### Claim theorems for `Imported.__init__` -/

/-- C8: `'pore.region_label'` is always excluded from the transfer, over
and above the two documented topology keys — for every settings value
(including an empty `exclude_props`) and every network, it never appears
on the geometry and its binding on the network is untouched. -/
theorem imported_region_label_always_excluded (st : ImpSettings) (reg : Registries)
    (network : Props) :
    containsKeyB "pore.region_label" (importedInit st reg network).geo = false
    ∧ lookupKey "pore.region_label" (importedInit st reg network).net
        = lookupKey "pore.region_label" network := by
  have hmem : memStr "pore.region_label" (st.exclude_props ++ alwaysExcluded) = true := by
    rw [memStr_iff]
    simp [alwaysExcluded]
  constructor
  · rw [importedInit_geo]
    simp only [aliasedGeoLogs]
    rw [assignAlias_contains_ne _ _ _ _ _ _ (by decide : "pore.region_label" ≠ "throat.diameter")]
    rw [assignAlias_contains_ne _ _ _ _ _ _ (by decide : "pore.region_label" ≠ "pore.diameter")]
    unfold transferredGeo
    rw [moveProps_geo_excluded _ _ hmem]
    rfl
  · rw [importedInit_net]
    unfold transferredNet
    exact moveProps_net_excluded _ _ hmem _ _ _

/-- Registry holding every model name needed by the default shapes. -/
def regAll : Registries :=
  ⟨["cones_and_cylinders"], ["cylinder"], ["cones_and_cylinders"], ["cones_and_cylinders"]⟩

/-- Concrete network for the C4 counterexample: `pore.region_label` is not
one of the two topology keys. -/
def netC4 : Props :=
  [("pore.coords", [0]), ("throat.conns", [1]), ("pore.region_label", [7]),
   ("pore.volume", [3]), ("pore.diameter", [2]), ("throat.diameter", [4]),
   ("throat.length", [5]), ("throat.volume", [6])]

/-- C4 counterexample: with `exclude_props = []`, the key
`'pore.region_label'` — which is not in the topology set
`{'pore.coords','throat.conns'}` — is nevertheless NOT moved to the
geometry: it stays on the network, refuting the claim that every
non-topology key is transferred. -/
theorem imported_transfer_counterexample :
    containsKeyB "pore.region_label" (importedInit defaultSettings regAll netC4).geo = false
    ∧ lookupKey "pore.region_label" (importedInit defaultSettings regAll netC4).net = some [7]
    ∧ lookupKey "pore.volume" (importedInit defaultSettings regAll netC4).geo = some [3] := by
  decide

/-- C4 (amended): with `exclude_props = []`, every property key of the
network outside the always-excluded set
`{'pore.coords','throat.conns','pore.region_label'}` is moved — the
geometry then holds its array and the network no longer does — while
keys in that set stay on the network and never reach the geometry. -/
theorem imported_transfer_moves_nonexcluded (st : ImpSettings) (reg : Registries)
    (network : Props) (hx : st.exclude_props = [])
    (hnd : (network.map Prod.fst).Nodup) :
    (∀ k v, (k, v) ∈ network → memStr k alwaysExcluded = false →
        lookupKey k (importedInit st reg network).geo = some v
        ∧ lookupKey k (importedInit st reg network).net = none)
    ∧ (∀ k v, (k, v) ∈ network → memStr k alwaysExcluded = true →
        lookupKey k (importedInit st reg network).net = some v
        ∧ containsKeyB k (importedInit st reg network).geo = false) := by
  have hexeq : st.exclude_props ++ alwaysExcluded = alwaysExcluded := by
    rw [hx]
    rfl
  constructor
  · intro k v hmem hex
    have hknet : lookupKey k network = some v := lookupKey_of_mem_nodup k v network hnd hmem
    have hkks : k ∈ network.map Prod.fst := List.mem_map.mpr ⟨(k, v), hmem, rfl⟩
    have hmv := moveProps_moves alwaysExcluded k v hex (network.map Prod.fst) network []
      hnd hkks hnd hknet rfl
    constructor
    · rw [importedInit_geo]
      simp only [aliasedGeoLogs]
      apply assignAlias_lookup_some
      apply assignAlias_lookup_some
      unfold transferredGeo
      rw [hexeq]
      exact hmv.1
    · rw [importedInit_net]
      unfold transferredNet
      rw [hexeq]
      exact hmv.2
  · intro k v hmem hex
    have hkmem := (memStr_iff _ _).mp hex
    have hne1 : k ≠ "throat.diameter" := by
      simp [alwaysExcluded] at hkmem
      rcases hkmem with rfl | rfl | rfl <;> decide
    have hne2 : k ≠ "pore.diameter" := by
      simp [alwaysExcluded] at hkmem
      rcases hkmem with rfl | rfl | rfl <;> decide
    constructor
    · rw [importedInit_net]
      unfold transferredNet
      rw [hexeq, moveProps_net_excluded alwaysExcluded k hex]
      exact lookupKey_of_mem_nodup k v network hnd hmem
    · rw [importedInit_geo]
      simp only [aliasedGeoLogs]
      rw [assignAlias_contains_ne _ _ _ _ _ _ hne1]
      rw [assignAlias_contains_ne _ _ _ _ _ _ hne2]
      unfold transferredGeo
      rw [hexeq, moveProps_geo_excluded alwaysExcluded k hex]
      rfl

/-- Concrete network for the C4 witness. -/
def netC4b : Props := [("pore.coords", [0]), ("pore.volume", [3])]

/-- Witness for the amended C4 at a concrete network. -/
theorem imported_transfer_moves_nonexcluded_witness :
    lookupKey "pore.volume" (importedInit defaultSettings regAll netC4b).geo = some [3]
    ∧ lookupKey "pore.coords" (importedInit defaultSettings regAll netC4b).net = some [0] :=
  ⟨((imported_transfer_moves_nonexcluded defaultSettings regAll netC4b rfl (by decide)).1
      "pore.volume" [3] (by decide) (by decide)).1,
   ((imported_transfer_moves_nonexcluded defaultSettings regAll netC4b rfl (by decide)).2
      "pore.coords" [0] (by decide) (by decide)).1⟩

lemma ne_of_data_ne (s t : String) (h : s.data ≠ t.data) : s ≠ t :=
  fun he => h (congrArg String.data he)

/-- The normalized throat alias key starts with `'throat.'`, so it can
never be the canonical pore key. -/
lemma aliasKeyOf_throat_ne_pore (x : String) : aliasKeyOf "throat." x ≠ "pore.diameter" := by
  apply ne_of_data_ne
  unfold aliasKeyOf
  rw [string_data_append]
  rw [show "throat.".data = 't' :: ['h', 'r', 'o', 'a', 't', '.'] from rfl]
  rw [show "pore.diameter".data
      = 'p' :: ['o', 'r', 'e', '.', 'd', 'i', 'a', 'm', 'e', 't', 'e', 'r'] from rfl]
  rw [List.cons_append]
  intro h
  injection h with h1 _
  exact absurd h1 (by decide)

lemma lookupKey_none_of_contains_false (k : String) (ps : Props)
    (h : containsKeyB k ps = false) : lookupKey k ps = none := by
  rw [containsKeyB_eq_isSome] at h
  cases hl : lookupKey k ps with
  | none => rfl
  | some v => rw [hl] at h; simp at h

/-- C5: during construction, when the canonical `'pore.diameter'` is
absent after the transfer, it is assigned the normalized alias key's
values if that key is present; if the alias key is also absent, no
exception is raised, `'pore.diameter'` stays unset, and an error
diagnostic naming the alias key is logged.  The same holds for
`'throat.diameter'` with its alias. -/
theorem imported_diameter_alias (st : ImpSettings) (reg : Registries) (network : Props) :
    (containsKeyB "pore.diameter" (transferredGeo st network) = false →
      (∀ v, lookupKey (aliasKeyOf "pore." st.pore_diameter) (transferredGeo st network) = some v →
          lookupKey "pore.diameter" (importedInit st reg network).geo = some v)
      ∧ (lookupKey (aliasKeyOf "pore." st.pore_diameter) (transferredGeo st network) = none →
          containsKeyB "pore.diameter" (importedInit st reg network).geo = false
          ∧ (aliasKeyOf "pore." st.pore_diameter ++ " not found, can't assign '"
              ++ "pore.diameter" ++ "'") ∈ (importedInit st reg network).logs))
    ∧ (containsKeyB "throat.diameter" (transferredGeo st network) = false →
      (∀ v, lookupKey (aliasKeyOf "throat." st.throat_diameter) (transferredGeo st network)
              = some v →
          lookupKey "throat.diameter" (importedInit st reg network).geo = some v)
      ∧ (lookupKey (aliasKeyOf "throat." st.throat_diameter) (transferredGeo st network) = none →
          containsKeyB "throat.diameter" (importedInit st reg network).geo = false
          ∧ (aliasKeyOf "throat." st.throat_diameter ++ " not found, can't assign '"
              ++ "throat.diameter" ++ "'") ∈ (importedInit st reg network).logs)) := by
  constructor
  · intro hpd
    constructor
    · intro v hv
      rw [importedInit_geo]
      simp only [aliasedGeoLogs]
      apply assignAlias_lookup_some
      rw [assignAlias_found "pore." "pore.diameter" st.pore_diameter
        (transferredGeo st network) [] v hpd hv]
      rw [lookupKey_append, lookupKey_none_of_contains_false _ _ hpd]
      simp [lookupKey]
    · intro hv
      have ha1 := assignAlias_missing "pore." "pore.diameter" st.pore_diameter
        (transferredGeo st network) [] hpd hv
      constructor
      · rw [importedInit_geo]
        simp only [aliasedGeoLogs]
        rw [assignAlias_contains_ne _ _ _ _ _ _
          (by decide : "pore.diameter" ≠ "throat.diameter")]
        rw [ha1]
        exact hpd
      · rw [importedInit_logs]
        simp only [aliasedGeoLogs]
        rw [ha1]
        obtain ⟨t, ht⟩ := assignAlias_logs_mono "throat." "throat.diameter" st.throat_diameter
          (transferredGeo st network)
          ([] ++ [aliasKeyOf "pore." st.pore_diameter ++ " not found, can't assign '"
            ++ "pore.diameter" ++ "'"])
        rw [ht]
        simp
  · intro htd
    have htd1 : containsKeyB "throat.diameter"
        (assignAlias "pore." "pore.diameter" st.pore_diameter
          (transferredGeo st network) []).1 = false := by
      rw [assignAlias_contains_ne _ _ _ _ _ _
        (by decide : "throat.diameter" ≠ "pore.diameter")]
      exact htd
    constructor
    · intro v hv
      have hv1 : lookupKey (aliasKeyOf "throat." st.throat_diameter)
          (assignAlias "pore." "pore.diameter" st.pore_diameter
            (transferredGeo st network) []).1 = some v := by
        rw [assignAlias_lookup_ne _ _ _ _ _ _ (aliasKeyOf_throat_ne_pore st.throat_diameter)]
        exact hv
      rw [importedInit_geo]
      simp only [aliasedGeoLogs]
      rw [assignAlias_found "throat." "throat.diameter" st.throat_diameter _ _ v htd1 hv1]
      rw [lookupKey_append, lookupKey_none_of_contains_false _ _ htd1]
      simp [lookupKey]
    · intro hv
      have hv1 : lookupKey (aliasKeyOf "throat." st.throat_diameter)
          (assignAlias "pore." "pore.diameter" st.pore_diameter
            (transferredGeo st network) []).1 = none := by
        rw [assignAlias_lookup_ne _ _ _ _ _ _ (aliasKeyOf_throat_ne_pore st.throat_diameter)]
        exact hv
      have ha2 := assignAlias_missing "throat." "throat.diameter" st.throat_diameter
        (assignAlias "pore." "pore.diameter" st.pore_diameter
          (transferredGeo st network) []).1
        (assignAlias "pore." "pore.diameter" st.pore_diameter
          (transferredGeo st network) []).2 htd1 hv1
      constructor
      · rw [importedInit_geo]
        simp only [aliasedGeoLogs]
        rw [ha2]
        exact htd1
      · rw [importedInit_logs]
        simp only [aliasedGeoLogs]
        rw [ha2]
        simp

/-- Concrete network for the C5 witness: canonical keys absent, the pore
alias present under the default setting's normalized key. -/
def netC5 : Props := [("pore.extended_diameter", [9]), ("throat.other", [8])]

/-- Witness for C5 at a concrete network: `'pore.diameter'` receives the
alias values, and the missing throat alias logs its diagnostic. -/
theorem imported_diameter_alias_witness :
    lookupKey "pore.diameter" (importedInit defaultSettings regAll netC5).geo = some [9]
    ∧ ("throat.inscribed_diameter not found, can't assign '" ++ "throat.diameter" ++ "'")
        ∈ (importedInit defaultSettings regAll netC5).logs :=
  ⟨((imported_diameter_alias defaultSettings regAll netC5).1 (by decide)).1 [9] (by decide),
   (by
    have h := ((imported_diameter_alias defaultSettings regAll netC5).2 (by decide)).2 (by decide)
    exact (by decide :
        aliasKeyOf "throat." defaultSettings.throat_diameter ++ " not found, can't assign '"
          ++ "throat.diameter" ++ "'"
        = "throat.inscribed_diameter not found, can't assign '" ++ "throat.diameter" ++ "'") ▸ h.2)⟩

/-- C6: the shape-model lookup key is the concatenation of the two
pluralized shape labels; when that key is missing from the (always
consulted) diffusive size-factor registry, construction surfaces a lookup
failure to the caller — the error field is set on every path. -/
theorem imported_shape_lookup_failure (st : ImpSettings) (reg : Registries) (network : Props)
    (h : memStr (shapePair st) reg.diffusive_size_factors = false) :
    ((importedInit st reg network).err).isSome = true := by
  rw [importedInit_err]
  simp only [registerModels]
  split
  · rfl
  · split
    · rfl
    · rw [if_pos (by rw [h]; rfl)]
      rfl

/-- The empty registry, for the C6 witness. -/
def regNone : Registries := ⟨[], [], [], []⟩

/-- Settings choosing the shape pair `('sphere','cuboid')`. -/
def stC6 : ImpSettings := ⟨"extended_diameter", "inscribed_diameter", "sphere", "cuboid", []⟩

/-- Witness for C6: `('sphere','cuboid')` has no entry
(`'spheres_and_cuboids'`) in the registry, and construction errors. -/
theorem imported_shape_lookup_failure_witness :
    ((importedInit stC6 regNone []).err).isSome = true :=
  imported_shape_lookup_failure stC6 regNone [] (by decide)

/-- Concrete network for the C7 counterexample: all four derived
properties already present after the transfer. -/
def netC7 : Props :=
  [("pore.diameter", [1]), ("throat.diameter", [2]), ("throat.length", [3]),
   ("throat.volume", [4]), ("throat.diffusive_size_factors", [5]),
   ("throat.hydraulic_size_factors", [6])]

/-- C7 counterexample: although `'throat.diffusive_size_factors'` is
already present on the geometry after the transfer, its model is still
registered — refuting the claim that the size-factor computations are
registered only when not already present. -/
theorem imported_size_factor_counterexample :
    containsKeyB "throat.diffusive_size_factors"
      (importedInit defaultSettings regAll netC7).geo = true
    ∧ ("throat.diffusive_size_factors", "cones_and_cylinders")
        ∈ (importedInit defaultSettings regAll netC7).models
    ∧ (importedInit defaultSettings regAll netC7).err = none := by
  decide

/-- When registration succeeds, the registered models are: throat length
and throat volume exactly when absent, and both size factors always. -/
lemma registerModels_ok_models (st : ImpSettings) (reg : Registries) (G : Props)
    (h : (registerModels st reg G).2 = none) :
    (registerModels st reg G).1
      = (if containsKeyB "throat.length" G then [] else [("throat.length", shapePair st)])
        ++ (if containsKeyB "throat.volume" G then [] else [("throat.volume", st.throat_shape)])
        ++ [("throat.diffusive_size_factors", shapePair st)]
        ++ [("throat.hydraulic_size_factors", shapePair st)] := by
  unfold registerModels at h ⊢
  by_cases hL : containsKeyB "throat.length" G = true <;>
    by_cases hV : containsKeyB "throat.volume" G = true <;>
    by_cases hML : memStr (shapePair st) reg.throat_length = true <;>
    by_cases hMV : memStr st.throat_shape reg.throat_volume = true <;>
    by_cases hD : memStr (shapePair st) reg.diffusive_size_factors = true <;>
    by_cases hH : memStr (shapePair st) reg.hydraulic_size_factors = true <;>
    simp_all

/-- C7 (amended): construction registers the throat length and throat
volume computations exactly when those keys are absent after the
transfer, but it registers the two size-factor computations
unconditionally — whether or not `'throat.diffusive_size_factors'` /
`'throat.hydraulic_size_factors'` are already present. -/
theorem imported_model_registration (st : ImpSettings) (reg : Registries) (network : Props)
    (h : (importedInit st reg network).err = none) :
    (containsKeyB "throat.length" (importedInit st reg network).geo = false →
        ("throat.length", shapePair st) ∈ (importedInit st reg network).models)
    ∧ (containsKeyB "throat.length" (importedInit st reg network).geo = true →
        "throat.length" ∉ ((importedInit st reg network).models).map Prod.fst)
    ∧ (containsKeyB "throat.volume" (importedInit st reg network).geo = false →
        ("throat.volume", st.throat_shape) ∈ (importedInit st reg network).models)
    ∧ (containsKeyB "throat.volume" (importedInit st reg network).geo = true →
        "throat.volume" ∉ ((importedInit st reg network).models).map Prod.fst)
    ∧ ("throat.diffusive_size_factors", shapePair st) ∈ (importedInit st reg network).models
    ∧ ("throat.hydraulic_size_factors", shapePair st) ∈ (importedInit st reg network).models := by
  rw [importedInit_err] at h
  have hchar := registerModels_ok_models st reg (aliasedGeoLogs st network).1 h
  rw [importedInit_geo, importedInit_models, hchar]
  refine ⟨?_, ?_, ?_, ?_, ?_, ?_⟩
  · intro hLf
    simp [hLf]
  · intro hLt
    by_cases hV : containsKeyB "throat.volume" (aliasedGeoLogs st network).1 = true
    · simp only [hLt, hV, if_true]
      simp only [List.nil_append, List.map_append, List.map_cons, List.map_nil,
        List.mem_append, List.mem_cons]
      decide
    · simp only [hLt, if_true]
      rw [if_neg hV]
      simp only [List.nil_append, List.map_append, List.map_cons, List.map_nil,
        List.mem_append, List.mem_cons]
      decide
  · intro hVf
    simp [hVf]
  · intro hVt
    by_cases hL : containsKeyB "throat.length" (aliasedGeoLogs st network).1 = true
    · simp only [hVt, hL, if_true]
      simp only [List.nil_append, List.map_append, List.map_cons, List.map_nil,
        List.mem_append, List.mem_cons]
      decide
    · simp only [hVt, if_true]
      rw [if_neg hL]
      simp only [List.map_append, List.map_cons, List.map_nil,
        List.mem_append, List.mem_cons]
      decide
  · simp
  · simp

/-- Witness for the amended C7 on the empty network with the default
shapes: both size-factor models are registered. -/
theorem imported_model_registration_witness :
    ("throat.diffusive_size_factors", shapePair defaultSettings)
        ∈ (importedInit defaultSettings regAll []).models
    ∧ ("throat.length", shapePair defaultSettings)
        ∈ (importedInit defaultSettings regAll []).models :=
  ⟨(imported_model_registration defaultSettings regAll [] (by decide)).2.2.2.2.1,
   (imported_model_registration defaultSettings regAll [] (by decide)).1 (by decide)⟩

/-- Lemma: `registerModels` reads only the two shape fields of the settings. -/
lemma registerModels_shape_only (pd1 pd2 td1 td2 ps ts : String) (ex1 ex2 : List String)
    (reg : Registries) (G : Props) :
    registerModels ⟨pd1, td1, ps, ts, ex1⟩ reg G
      = registerModels ⟨pd2, td2, ps, ts, ex2⟩ reg G := rfl

/-- C9: the essential-diameter settings are prefix-normalized — the lookup
key is `'pore.'` (resp. `'throat.'`) joined to the part of the setting
after the last separator occurrence, so a bare setting `s` and the
prefixed setting `'pore.' + s` resolve to the same alias key and the
whole construction produces identical results. -/
theorem imported_alias_prefix_normalized (s td ps ts : String) (ex : List String)
    (reg : Registries) (network : Props) :
    aliasKeyOf "pore." ("pore." ++ s) = aliasKeyOf "pore." s
    ∧ aliasKeyOf "throat." ("throat." ++ td) = aliasKeyOf "throat." td
    ∧ importedInit ⟨"pore." ++ s, td, ps, ts, ex⟩ reg network
        = importedInit ⟨s, td, ps, ts, ex⟩ reg network
    ∧ importedInit ⟨s, "throat." ++ td, ps, ts, ex⟩ reg network
        = importedInit ⟨s, td, ps, ts, ex⟩ reg network := by
  have hpore : aliasKeyOf "pore." ("pore." ++ s) = aliasKeyOf "pore." s :=
    aliasKeyOf_prepend "pore." s 'p' ['o', 'r', 'e', '.'] rfl
  have hthroat : aliasKeyOf "throat." ("throat." ++ td) = aliasKeyOf "throat." td :=
    aliasKeyOf_prepend "throat." td 't' ['h', 'r', 'o', 'a', 't', '.'] rfl
  refine ⟨hpore, hthroat, ?_, ?_⟩
  · simp only [importedInit, aliasedGeoLogs, transferredGeo, transferredNet]
    rw [assignAlias_key_congr "pore." "pore.diameter" ("pore." ++ s) s _ _ hpore]
    rw [registerModels_shape_only ("pore." ++ s) s td td ps ts ex ex reg]
  · simp only [importedInit, aliasedGeoLogs, transferredGeo, transferredNet]
    rw [assignAlias_key_congr "throat." "throat.diameter" ("throat." ++ td) td _ _ hthroat]
    rw [registerModels_shape_only s s ("throat." ++ td) td ps ts ex ex reg]
